import Mathlib

/-!
Verification development for the DST compiler's eligibility-window and
compliance-audit core (dst_data_fetcher.py, audit_curated_data.py,
build_governor_entries.py).

Dates are embedded as year/month/day triples of naturals, ordered
lexicographically exactly as Python `datetime.date` compares; day
differences go through the proleptic Gregorian ordinal, matching
`date.toordinal` subtraction.  Module-level "today" constants of the
scripts are threaded as explicit parameters.
-/

namespace Dst

/-- Gregorian leap-year rule, as used by Python's `calendar` module. -/
def isLeapYear (y : Nat) : Bool :=
  (y % 4 == 0 && y % 100 != 0) || y % 400 == 0

/-- Number of days in a month (`calendar.monthrange(year, month)[1]`).
Returns 0 for an out-of-range month, where Python would raise. -/
def monthLength (y m : Nat) : Nat :=
  match m with
  | 1 => 31
  | 2 => if isLeapYear y then 29 else 28
  | 3 => 31
  | 4 => 30
  | 5 => 31
  | 6 => 30
  | 7 => 31
  | 8 => 31
  | 9 => 30
  | 10 => 31
  | 11 => 30
  | 12 => 31
  | _ => 0

/-- A calendar date, as Python's `datetime.date` (no time component). -/
@[ext]
structure Date where
  year : Nat
  month : Nat
  day : Nat
deriving DecidableEq, Repr

/-- The date is a real calendar date (what `datetime.date` enforces). -/
def ValidDate (d : Date) : Prop :=
  1 ≤ d.month ∧ d.month ≤ 12 ∧ 1 ≤ d.day ∧ d.day ≤ monthLength d.year d.month

instance (d : Date) : Decidable (ValidDate d) := by
  unfold ValidDate; infer_instance

/-- Lexicographic strict order on dates: Python's `date.__lt__`. -/
def Date.lt (a b : Date) : Prop :=
  a.year < b.year ∨ (a.year = b.year ∧
    (a.month < b.month ∨ (a.month = b.month ∧ a.day < b.day)))

/-- Lexicographic order on dates: Python's `date.__le__`. -/
def Date.le (a b : Date) : Prop :=
  a.year < b.year ∨ (a.year = b.year ∧
    (a.month < b.month ∨ (a.month = b.month ∧ a.day ≤ b.day)))

instance : LT Date := ⟨Date.lt⟩

instance : LE Date := ⟨Date.le⟩

theorem Date.lt_iff (a b : Date) : a < b ↔
    (a.year < b.year ∨ (a.year = b.year ∧
      (a.month < b.month ∨ (a.month = b.month ∧ a.day < b.day)))) := Iff.rfl

theorem Date.le_iff (a b : Date) : a ≤ b ↔
    (a.year < b.year ∨ (a.year = b.year ∧
      (a.month < b.month ∨ (a.month = b.month ∧ a.day ≤ b.day)))) := Iff.rfl

instance (a b : Date) : Decidable (a < b) :=
  decidable_of_iff _ (Date.lt_iff a b).symm

instance (a b : Date) : Decidable (a ≤ b) :=
  decidable_of_iff _ (Date.le_iff a b).symm

/-- Leap years with year number strictly below `y` (at least 1). -/
def leapsBefore (y : Nat) : Nat :=
  (y - 1) / 4 - (y - 1) / 100 + (y - 1) / 400

/-- Days in all years preceding year `y`. -/
def daysBeforeYear (y : Nat) : Nat :=
  365 * (y - 1) + leapsBefore y

/-- Days in the months of year `y` strictly before month `m`. -/
def daysBeforeMonth (y : Nat) : Nat → Nat
  | 0 => 0
  | m + 1 => daysBeforeMonth y m + monthLength y m

/-- Proleptic Gregorian ordinal, as Python's `date.toordinal`
(0001-01-01 is day 1). -/
def toOrdinal (d : Date) : Nat :=
  daysBeforeYear d.year + daysBeforeMonth d.year d.month + d.day

/-- Signed day difference `(a - b).days` between two Python dates. -/
def dateSub (a b : Date) : Int :=
  (toOrdinal a : Int) - (toOrdinal b : Int)

/-- One fuelled unrolling of the `while target_month > 12` loop; the
loop strictly decreases the month, so fuel `m` always suffices. -/
def monthRolloverFuel : Nat → Nat → Nat → Nat × Nat
  | 0, y, m => (y, m)
  | fuel + 1, y, m => if m > 12 then monthRolloverFuel fuel (y + 1) (m - 12) else (y, m)

/-- Month-overflow normalization: the `while target_month > 12` loop of
`calculate_ongoing_max_end` (dst_data_fetcher.py) and of
`calculate_sep_window_end_ongoing` (audit_curated_data.py). -/
def monthRollover (y m : Nat) : Nat × Nat :=
  monthRolloverFuel m y m

/-- Spec §4.1 DateMath contract `lastDayOfMonthPlus`: add calendar
months, normalize overflow into year increments, return the last
calendar day of the resulting month. -/
def lastDayOfMonthPlus (d : Date) (monthOffset : Nat) : Date :=
  let p := monthRollover d.year (d.month + monthOffset)
  ⟨p.1, p.2, monthLength p.1 p.2⟩

/-- `calculate_sep_window_end` (dst_data_fetcher.py lines 86-107):
last day of the 2nd calendar month after the incident end. -/
def calculate_sep_window_end (incident_end : Date) : Date :=
  let month := incident_end.month
  let year := incident_end.year
  let tm0 := month + 2
  let target_year := if tm0 > 12 then year + 1 else year
  let target_month := if tm0 > 12 then tm0 - 12 else tm0
  let last_day := monthLength target_year target_month
  ⟨target_year, target_month, last_day⟩

/-- `calculate_sep_window_end_with_incident_end`
(audit_curated_data.py lines 65-75); body identical to the fetcher's
`calculate_sep_window_end`. -/
def calculate_sep_window_end_with_incident_end (incident_end : Date) : Date :=
  let month := incident_end.month
  let year := incident_end.year
  let tm0 := month + 2
  let target_year := if tm0 > 12 then year + 1 else year
  let target_month := if tm0 > 12 then tm0 - 12 else tm0
  let last_day := monthLength target_year target_month
  ⟨target_year, target_month, last_day⟩

/-- The `max_date` loop of `calculate_ongoing_max_end`: the latest of
`sep_start` and any renewal date. -/
def anchorDate (sep_start : Date) (renewal_dates : List Date) : Date :=
  renewal_dates.foldl (fun md rd => if md < rd then rd else md) sep_start

/-- `calculate_ongoing_max_end` (dst_data_fetcher.py lines 110-128):
14-month maximum for ongoing disasters, re-anchored at the latest of
`sep_start` and the renewal dates.  A Python `None` renewal list is
passed as `[]` (the loop body is skipped either way). -/
def calculate_ongoing_max_end (sep_start : Date) (renewal_dates : List Date) : Date :=
  let max_date := anchorDate sep_start renewal_dates
  let p := monthRollover max_date.year (max_date.month + 14)
  ⟨p.1, p.2, monthLength p.1 p.2⟩

/-- `calculate_sep_start` (dst_data_fetcher.py lines 131-133):
`min(declaration_date, incident_start)`. -/
def calculate_sep_start (declaration_date incident_start : Date) : Date :=
  if declaration_date ≤ incident_start then declaration_date else incident_start

/-- The status decision of `calculate_status` as a function of the
computed `days_remaining` value. -/
def statusOfDays (days_remaining : Int) (is_ongoing : Bool) : String :=
  if days_remaining < 0 then "expired"
  else if days_remaining ≤ 30 then "expiring_soon"
  else if is_ongoing then "ongoing"
  else "active"

/-- `calculate_status` (dst_data_fetcher.py lines 136-146), with the
module's `date.today()` threaded as the explicit `today` parameter. -/
def calculate_status (sep_end : Date) (is_ongoing : Bool) (today : Date) : String :=
  let days_remaining := dateSub sep_end today
  if days_remaining < 0 then "expired"
  else if days_remaining ≤ 30 then "expiring_soon"
  else if is_ongoing then "ongoing"
  else "active"

/-- `calc_status` (build_governor_entries.py lines 55-66).  `sep_end`
is accepted and ignored exactly as in the source; `incident_end` is the
raw nullable date string. -/
def calc_status (incident_end : Option String) (sep_end : Date) (days_rem : Int) : String :=
  match incident_end with
  | none => if days_rem ≤ 30 then "expiring_soon" else "ongoing"
  | some _ => if days_rem ≤ 30 then "expiring_soon" else "active"

/-- Contiguous-sublist test on character lists. -/
def charsInfix (needle : List Char) : List Char → Bool
  | [] => needle.isEmpty
  | c :: rest => needle.isPrefixOf (c :: rest) || charsInfix needle rest

/-- Python's `str.lower()`, as ASCII-folding of the character list. -/
def strLower (s : String) : String :=
  String.mk (s.toList.map Char.toLower)

/-- Code-point lexicographic strict comparison of character lists:
Python's `str.__lt__`. -/
def charsLt : List Char → List Char → Bool
  | [], [] => false
  | [], _ :: _ => true
  | _ :: _, [] => false
  | a :: as, b :: bs => a < b || (a == b && charsLt as bs)

/-- Python's `s < t` on strings. -/
def strLtB (s t : String) : Bool :=
  charsLt s.toList t.toList

/-- Python's `s <= t` on strings. -/
def strLeB (s t : String) : Bool :=
  strLtB s t || s == t

/-- `days_remaining` (dst_data_fetcher.py lines 149-153), with `today`
threaded explicitly. -/
def days_remaining (sep_end : Option Date) (today : Date) : Option Int :=
  match sep_end with
  | none => none
  | some se => some (dateSub se today)

/-- `VALID_STATES` (dst_data_fetcher.py lines 52-59). -/
def validStates : List String :=
  ["AL", "AK", "AZ", "AR", "CA", "CO", "CT", "DE", "DC", "FL", "GA",
   "GU", "HI", "ID", "IL", "IN", "IA", "KS", "KY", "LA", "ME", "MD",
   "MA", "MI", "MN", "MS", "MO", "MT", "NE", "NV", "NH", "NJ", "NM",
   "NY", "NC", "ND", "MP", "OH", "OK", "OR", "PA", "PR", "RI", "SC",
   "SD", "TN", "TX", "UT", "VT", "VA", "VI", "WA", "WV", "WI", "WY",
   "AS"]

/-- A built disaster record (the dict assembled by `build_record`).
Dates are kept as `Date` values rather than their ISO serializations;
the `lastUpdated` build timestamp is omitted as pure provenance. -/
structure DisasterRecord where
  id : String
  source : String
  state : String
  title : String
  incidentType : String
  declarationDate : Date
  incidentStart : Date
  incidentEnd : Option Date
  renewalDates : Option (List Date)
  counties : List String
  statewide : Bool
  officialUrl : String
  status : String
  sepWindowStart : Date
  sepWindowEnd : Date
  daysRemaining : Option Int
  confidenceLevel : String
  lastVerified : Option String
deriving DecidableEq, Repr

/-- The `sep_end` computation inside `build_record`. -/
def build_sep_end (sep_start : Date) (incident_end : Option Date)
    (renewal_dates_list : Option (List Date)) : Date :=
  match incident_end with
  | none => calculate_ongoing_max_end sep_start (renewal_dates_list.getD [])
  | some e => calculate_sep_window_end e

/-- `build_record` (dst_data_fetcher.py lines 226-292): validates the
inputs, computes the SEP window and status, and refuses to build a
record whose status would be `expired`.  `VERIFY_URLS_ON_BUILD` is
`False` in the source, so the URL-reachability branch is dead code and
not modelled; `date.today()` is the explicit `today` parameter. -/
def build_record (today : Date) (id_str source state title incident_type : String)
    (declaration_date incident_start : Date) (incident_end : Option Date)
    (renewal_dates_list : Option (List Date)) (counties : List String)
    (statewide : Bool) (official_url : String) (confidence : String)
    (last_verified : Option String) : Option DisasterRecord :=
  if today < declaration_date then none
  else if (match incident_end with
           | some e => decide (e < incident_start)
           | none => false) then none
  else if official_url = "" then none
  else if counties = [] then none
  else if ¬ (validStates.contains state) then none
  else
    let is_ongoing := incident_end.isNone
    let sep_start := calculate_sep_start declaration_date incident_start
    let sep_end := build_sep_end sep_start incident_end renewal_dates_list
    let status := calculate_status sep_end is_ongoing today
    if status = "expired" then none
    else some
      { id := id_str
        source := source
        state := state
        title := title
        incidentType := incident_type
        declarationDate := declaration_date
        incidentStart := incident_start
        incidentEnd := incident_end
        renewalDates := renewal_dates_list
        counties := counties.insertionSort (fun a b => strLeB (strLower a) (strLower b) = true)
        statewide := statewide
        officialUrl := official_url
        status := status
        sepWindowStart := sep_start
        sepWindowEnd := sep_end
        daysRemaining := days_remaining (some sep_end) today
        confidenceLevel := confidence
        lastVerified := last_verified }

/-!  The audit model (audit_curated_data.py).  A JSON date field is
absent, null, a non-date value, or a parseable `YYYY-MM-DD` string;
`JDate` captures exactly the distinctions the audit code observes via
`field in rec`, `rec.get(field) is not None` and `parse_date`. -/

inductive JDate where
  | missing
  | null
  | bad
  | iso (d : Date)
deriving DecidableEq, Repr

/-- `parse_date(rec.get(field))` (audit_curated_data.py lines 55-62). -/
def JDate.parsed : JDate → Option Date
  | iso d => some d
  | _ => none

/-- Python's `rec.get(field) is not None`. -/
def JDate.isGiven : JDate → Bool
  | missing => false
  | null => false
  | _ => true

/-- Python's `field in rec`. -/
def JDate.keyPresent : JDate → Bool
  | missing => false
  | _ => true

/-- A record as run_audit's per-record loop reads it: every field
access is via `rec.get`, so each field is optional.  String-valued
fields conflate JSON null with absence (the audit code treats both
through the same `rec.get` defaults). -/
structure AuditRecord where
  id : Option String
  source : Option String
  state : Option String
  title : Option String
  incidentType : Option String
  declarationDate : JDate
  incidentStart : JDate
  incidentEnd : JDate
  officialUrl : Option String
  counties : Option (List String)
  status : Option String
  sepWindowStart : JDate
  sepWindowEnd : JDate
  renewalDates : Option (List JDate)
  daysRemaining : Option Int
  lastVerified : JDate
deriving DecidableEq, Repr

/-- One audit finding: the check number and whether it passed.  The
report strings (`description`, `expected`, `actual`) of the `check`
helper are presentation-only and omitted here. -/
structure Finding where
  num : Nat
  passed : Bool
deriving DecidableEq, Repr

/-- `VALID_SOURCES_CURATED` (audit_curated_data.py line 36). -/
def validSourcesCurated : List String := ["SBA", "FMCSA", "HHS", "USDA", "STATE"]

/-- `VALID_SOURCES_ALL` (audit_curated_data.py line 37). -/
def validSourcesAll : List String := ["SBA", "FMCSA", "HHS", "USDA", "STATE", "FEMA"]

/-- The mode-dependent `valid_sources` of `run_audit`. -/
def validSources (all_disasters : Bool) : List String :=
  if all_disasters then validSourcesAll else validSourcesCurated

/-- `VALID_STATE_CODES` (audit_curated_data.py lines 39-46). -/
def validStateCodes : List String :=
  ["AL", "AK", "AZ", "AR", "CA", "CO", "CT", "DE", "FL", "GA",
   "HI", "ID", "IL", "IN", "IA", "KS", "KY", "LA", "ME", "MD",
   "MA", "MI", "MN", "MS", "MO", "MT", "NE", "NV", "NH", "NJ",
   "NM", "NY", "NC", "ND", "OH", "OK", "OR", "PA", "RI", "SC",
   "SD", "TN", "TX", "UT", "VT", "VA", "WA", "WV", "WI", "WY",
   "DC", "PR", "VI", "GU", "AS", "MP"]

/-- `TOMORROW = TODAY + timedelta(days=1)` (audit_curated_data.py
line 31), as calendar successor of a valid date. -/
def nextDay (d : Date) : Date :=
  if d.day < monthLength d.year d.month then ⟨d.year, d.month, d.day + 1⟩
  else if d.month < 12 then ⟨d.year, d.month + 1, 1⟩
  else ⟨d.year + 1, 1, 1⟩

/-- `TWENTY_FOUR_MONTHS_AGO = date(TODAY.year - 2, TODAY.month,
min(TODAY.day, 28))` (audit_curated_data.py line 30). -/
def twentyFourMonthsAgo (today : Date) : Date :=
  ⟨today.year - 2, today.month, min today.day 28⟩

/-- `calculate_sep_window_end_ongoing` (audit_curated_data.py lines
78-94): like the fetcher's ongoing calculation but parsing each raw
renewal entry and skipping unparseable ones. -/
def calculate_sep_window_end_ongoing (sep_start : Date)
    (renewal_dates : List JDate) : Date :=
  let max_date := renewal_dates.foldl
    (fun md j => match j.parsed with
      | some rd => if md < rd then rd else md
      | none => md) sep_start
  let p := monthRollover max_date.year (max_date.month + 14)
  ⟨p.1, p.2, monthLength p.1 p.2⟩

/-- Key-presence of the `REQUIRED_FIELDS` (audit_curated_data.py lines
48-52), in source order; Check 1's `missing_fields` list. -/
def missingRequiredFields (r : AuditRecord) : List String :=
  (if r.id.isSome then [] else ["id"]) ++
  (if r.source.isSome then [] else ["source"]) ++
  (if r.state.isSome then [] else ["state"]) ++
  (if r.title.isSome then [] else ["title"]) ++
  (if r.incidentType.isSome then [] else ["incidentType"]) ++
  (if r.declarationDate.keyPresent then [] else ["declarationDate"]) ++
  (if r.incidentStart.keyPresent then [] else ["incidentStart"]) ++
  (if r.officialUrl.isSome then [] else ["officialUrl"]) ++
  (if r.counties.isSome then [] else ["counties"]) ++
  (if r.status.isSome then [] else ["status"]) ++
  (if r.sepWindowStart.keyPresent then [] else ["sepWindowStart"]) ++
  (if r.sepWindowEnd.keyPresent then [] else ["sepWindowEnd"])

/-- Check 1: has all required fields. -/
def check1 (r : AuditRecord) : Finding :=
  ⟨1, missingRequiredFields r = []⟩

/-- Python's `s.split("-")` on the character list of `s` (empty parts
preserved, exactly as `str.split` with an explicit separator). -/
def splitDash : List Char → List (List Char)
  | [] => [[]]
  | c :: rest =>
    match splitDash rest with
    | [] => [[]]
    | h :: t => if c == '-' then [] :: h :: t else (c :: h) :: t

/-- The regex `^FEMA-(DR|EM)-\d+-[A-Z]{2}$` of Check 2.  Since neither
`\d+` nor `[A-Z]{2}` can match a dash, the regex matches exactly the
strings whose dash-split has this four-part shape. -/
def femaIdFormatValid (rid : String) : Bool :=
  match splitDash rid.toList with
  | [f, t, num, st] =>
    (f == "FEMA".toList) && (t == "DR".toList || t == "EM".toList) &&
    (!num.isEmpty) && num.all Char.isDigit &&
    (st.length == 2) && st.all (fun c => 'A' ≤ c && c ≤ 'Z')
  | _ => false

/-- Check 2: ID format (audit_curated_data.py lines 891-911).
`rid = rec.get("id", "MISSING-ID")`. -/
def check2 (all_disasters : Bool) (r : AuditRecord) : Finding :=
  let rid := r.id.getD "MISSING-ID"
  let source := r.source.getD ""
  if source == "FEMA" then
    ⟨2, femaIdFormatValid rid⟩
  else
    let parts := (splitDash rid.toList).map (fun l => String.mk l)
    ⟨2, decide (parts.length ≥ 3) &&
        (validSources all_disasters).contains (parts.headD "") &&
        validStateCodes.contains (parts.getLastD "")⟩

/-- Check 3: source is one of the mode's valid sources. -/
def check3 (all_disasters : Bool) (r : AuditRecord) : Finding :=
  ⟨3, (validSources all_disasters).contains (r.source.getD "")⟩

/-- Check 4: state is a valid 2-letter code. -/
def check4 (r : AuditRecord) : Finding :=
  ⟨4, validStateCodes.contains (r.state.getD "")⟩

/-- Check 5: counties array non-empty (`rec.get("counties", [])`). -/
def check5 (r : AuditRecord) : Finding :=
  ⟨5, decide ((r.counties.getD []).length > 0)⟩

/-- Check 6: officialUrl present and non-empty. -/
def check6 (r : AuditRecord) : Finding :=
  ⟨6, !(r.officialUrl.getD "").toList.isEmpty⟩

/-- Check 7: declarationDate valid and `< TOMORROW`. -/
def check7 (today : Date) (r : AuditRecord) : Finding :=
  ⟨7, match r.declarationDate.parsed with
      | some d => decide (d < nextDay today)
      | none => false⟩

/-- Check 8: incidentStart valid and `>= TWENTY_FOUR_MONTHS_AGO`. -/
def check8 (today : Date) (r : AuditRecord) : Finding :=
  ⟨8, match r.incidentStart.parsed with
      | some d => decide (twentyFourMonthsAgo today ≤ d)
      | none => false⟩

/-- Check 9: if incidentEnd is given, `incidentStart <= incidentEnd`;
otherwise an explicit N/A pass. -/
def check9 (r : AuditRecord) : Finding :=
  if r.incidentEnd.isGiven then
    ⟨9, match r.incidentStart.parsed, r.incidentEnd.parsed with
        | some s, some e => decide (s ≤ e)
        | _, _ => false⟩
  else ⟨9, true⟩

/-- Check 10: `sepWindowStart = min(declarationDate, incidentStart)`;
fails outright when either input date is missing. -/
def check10 (r : AuditRecord) : Finding :=
  match r.declarationDate.parsed, r.incidentStart.parsed with
  | some dd, some ii =>
    ⟨10, r.sepWindowStart.parsed == some (if dd ≤ ii then dd else ii)⟩
  | _, _ => ⟨10, false⟩

/-- Check 11: ended records recompute `sepWindowEnd` from incidentEnd;
N/A pass for ongoing (or unparseable-end) records. -/
def check11 (r : AuditRecord) : Finding :=
  match r.incidentEnd.isGiven, r.incidentEnd.parsed with
  | true, some e =>
    ⟨11, r.sepWindowEnd.parsed == some (calculate_sep_window_end_with_incident_end e)⟩
  | _, _ => ⟨11, true⟩

/-- Check 12: ongoing records recompute `sepWindowEnd` from the anchor;
N/A pass when the record has an incidentEnd (or no sepWindowStart). -/
def check12 (r : AuditRecord) : Finding :=
  match r.incidentEnd.isGiven, r.sepWindowStart.parsed with
  | false, some ss =>
    ⟨12, r.sepWindowEnd.parsed ==
         some (calculate_sep_window_end_ongoing ss (r.renewalDates.getD []))⟩
  | _, _ => ⟨12, true⟩

/-- Check 13: `sepWindowEnd >= today`; fails when null. -/
def check13 (today : Date) (r : AuditRecord) : Finding :=
  match r.sepWindowEnd.parsed with
  | some se => ⟨13, decide (today ≤ se)⟩
  | none => ⟨13, false⟩

/-- Checks 14-17: status versus (hasIncidentEnd, daysRemaining), two
checked branches and two N/A branches per record
(audit_curated_data.py lines 1003-1042). -/
def checks14to17 (r : AuditRecord) : List Finding :=
  let status := r.status.getD ""
  if !r.incidentEnd.isGiven then
    (match r.daysRemaining with
     | some dr =>
       if dr > 30 then [⟨14, status == "ongoing"⟩, ⟨15, true⟩]
       else [⟨14, true⟩, ⟨15, status == "expiring_soon"⟩]
     | none => [⟨14, true⟩, ⟨15, true⟩]) ++ [⟨16, true⟩, ⟨17, true⟩]
  else
    [⟨14, true⟩, ⟨15, true⟩] ++
    (match r.daysRemaining with
     | some dr =>
       if dr > 30 then [⟨16, status == "active"⟩, ⟨17, true⟩]
       else [⟨16, true⟩, ⟨17, status == "expiring_soon"⟩]
     | none => [⟨16, true⟩, ⟨17, true⟩])

/-- Check 18: status is never "expired" in a persisted record
(audit_curated_data.py lines 1044-1047). -/
def check18 (r : AuditRecord) : Finding :=
  ⟨18, decide (r.status.getD "" ≠ "expired")⟩

/-- Checks 22 and 24: lastVerified presence/validity and 30-day
staleness for STATE/HHS sources, explicit N/A passes otherwise
(audit_curated_data.py lines 1049-1076). -/
def checks22and24 (today : Date) (r : AuditRecord) : List Finding :=
  let source := r.source.getD ""
  if source == "STATE" || source == "HHS" then
    let lv_date := r.lastVerified.parsed
    [⟨22, lv_date.isSome⟩] ++
    (match lv_date with
     | some d => [⟨24, decide (dateSub today d ≤ 30)⟩]
     | none => [⟨24, true⟩])
  else if source == "FEMA" then [⟨22, true⟩, ⟨24, true⟩]
  else [⟨22, true⟩, ⟨24, true⟩]

/-- The regex `^https://www\.fema\.gov/disaster/(\d+)$` of Check 26. -/
def femaDisasterUrlValid (url : String) : Bool :=
  let stem := "https://www.fema.gov/disaster/".toList
  stem.isPrefixOf url.toList &&
  !(url.toList.drop stem.length).isEmpty &&
  (url.toList.drop stem.length).all Char.isDigit

/-- Check 26: FEMA-specific URL structure; N/A pass for other
sources.  (When the regex matches, the source passes the check
regardless of the extracted number.) -/
def check26 (r : AuditRecord) : Finding :=
  let url := r.officialUrl.getD ""
  if r.source.getD "" == "FEMA" then ⟨26, femaDisasterUrlValid url⟩
  else ⟨26, true⟩

/-- Python's substring test `needle in hay`. -/
def containsSub (needle hay : String) : Bool :=
  charsInfix needle.toList hay.toList

/-- The `expected_domains` allowlist of Check 27. -/
def expectedDomains (source : String) : Option (List String) :=
  if source == "FEMA" then some ["fema.gov"]
  else if source == "SBA" then some ["federalregister.gov", "sba.gov"]
  else if source == "HHS" then some ["hhs.gov", "aspr.hhs.gov"]
  else if source == "FMCSA" then some ["fmcsa.dot.gov"]
  else if source == "STATE" then some [".gov"]
  else if source == "USDA" then some ["fsa.usda.gov", "usda.gov"]
  else none

/-- Check 27: URL well-formedness (https scheme) and expected domain
for the record's source (audit_curated_data.py lines 1101-1119). -/
def check27 (r : AuditRecord) : Finding :=
  let url := r.officialUrl.getD ""
  let source := r.source.getD ""
  let url_wellformed := !url.toList.isEmpty && "https://".toList.isPrefixOf url.toList
  let domain_ok :=
    match url_wellformed, expectedDomains source with
    | true, some ds => ds.any (fun d => containsSub d (strLower url))
    | _, _ => true
  ⟨27, url_wellformed && domain_ok⟩

/-- The full per-record finding list of `run_audit`'s loop, in emission
order: checks 1-18, 22, 24, 26, 27. -/
def perRecordFindings (all_disasters : Bool) (today : Date) (r : AuditRecord) : List Finding :=
  [check1 r, check2 all_disasters r, check3 all_disasters r, check4 r,
   check5 r, check6 r, check7 today r, check8 today r, check9 r,
   check10 r, check11 r, check12 r, check13 today r] ++
  checks14to17 r ++
  [check18 r] ++
  checks22and24 today r ++
  [check26 r, check27 r]

/-- A cross-record finding: check number, the `expected` report string,
and the pass flag (`entityId`/description/actual omitted as
presentation-only). -/
structure CrossFinding where
  num : Nat
  expected : String
  passed : Bool
deriving DecidableEq, Repr

/-- The corpus envelope metadata as the audit reads it
(`metadata.get("recordCount", "MISSING")`; a non-integer or missing
value can never equal the actual count). -/
structure CorpusMeta where
  recordCount : Option Nat
deriving DecidableEq, Repr

/-- Check 19: no duplicate IDs.  `duplicates` is empty exactly when
every collected id occurs at most once. -/
def check19 (disasters : List AuditRecord) : CrossFinding :=
  let all_ids := disasters.filterMap (fun d => d.id)
  ⟨19, "All unique", all_ids.all (fun i => decide (all_ids.count i ≤ 1))⟩

/-- Check 20: FEMA-source policy.  Curated mode fails on any FEMA
record; all-disasters mode records the expected non-zero FEMA count but
always passes (a zero count only warns, since the FEMA API may be
down). -/
def check20 (all_disasters : Bool) (disasters : List AuditRecord) : CrossFinding :=
  let fema_records := disasters.filter (fun d => d.source == some "FEMA")
  if all_disasters then ⟨20, ">0 FEMA records", true⟩
  else ⟨20, "0 FEMA records", fema_records.length == 0⟩

/-- Check 21: metadata recordCount matches the actual count. -/
def check21 (meta : CorpusMeta) (disasters : List AuditRecord) : CrossFinding :=
  ⟨21, toString disasters.length, meta.recordCount == some disasters.length⟩

/-- The cross-record checks of `run_audit` (audit_curated_data.py lines
845-876), in emission order. -/
def crossRecordChecks (all_disasters : Bool) (meta : CorpusMeta)
    (disasters : List AuditRecord) : List CrossFinding :=
  [check19 disasters, check20 all_disasters disasters, check21 meta disasters]

/-- A state-registry entry as `run_state_health_checks` reads it:
`incidentEnd` is the raw nullable value, `declarationDate` the raw
date field, `endDateDetermination.method` and `renewalDates` as
optional fields. -/
structure StateEntry where
  incidentEnd : Option String
  declarationDate : JDate
  renewalDates : Option (List String)
  detMethod : Option String
deriving DecidableEq, Repr

/-- A state-health finding; the `description` string distinguishes the
staleness tiers. -/
structure StateFinding where
  num : Nat
  description : String
  passed : Bool
deriving DecidableEq, Repr

/-- `bool(renewal_dates and len(renewal_dates) > 0)`. -/
def hasRenewals (e : StateEntry) : Bool :=
  match e.renewalDates with
  | some l => decide (l.length > 0)
  | none => false

/-- Check 29 (audit_curated_data.py lines 708-738): staleness by age
for ongoing state entries, with the `still_active` exemption, a hard
tier above 120 days and a review tier above 60 days. -/
def check29 (today : Date) (e : StateEntry) : StateFinding :=
  match e.incidentEnd, e.declarationDate.parsed with
  | none, some decl_date =>
    let age_days := dateSub today decl_date
    let method := e.detMethod.getD "unknown"
    if method == "still_active" then
      ⟨29, "Staleness check — confirmed still_active", true⟩
    else if age_days > 120 && !hasRenewals e then
      ⟨29, "Ongoing STATE >120 days old without renewals", false⟩
    else if age_days > 60 && !hasRenewals e then
      ⟨29, "Ongoing STATE >60 days old without renewals (review needed)", false⟩
    else
      ⟨29, "Staleness check — age within acceptable range", true⟩
  | _, _ => ⟨29, "Staleness by age — N/A (has incidentEnd)", true⟩

/-- A provider record as the merge layer sees it: its `id` key plus the
rest of the dict, abstracted as an opaque payload. -/
structure RawRecord where
  id : String
  payload : Nat
deriving DecidableEq, Repr

/-- `by_id[rec["id"]] = rec` on an insertion-ordered dict represented
as a duplicate-free association list: replace in place, else append. -/
def upsert (m : List RawRecord) (rec : RawRecord) : List RawRecord :=
  if m.any (fun x => x.id == rec.id) then
    m.map (fun x => if x.id == rec.id then rec else x)
  else m ++ [rec]

/-- `deduplicate` (dst_data_fetcher.py lines 2412-2420): first
occurrence wins. -/
def deduplicate (records : List RawRecord) : List RawRecord :=
  records.foldl
    (fun unique rec =>
      if unique.any (fun x => x.id == rec.id) then unique
      else unique ++ [rec]) []

/-- `deduplicate_prefer_fema` (dst_data_fetcher.py lines 2423-2440):
FEMA records are written into the dict first (later FEMA entries
overwrite earlier ones with the same id), then curated records fill in
only missing ids; `list(by_id.values())` preserves insertion order. -/
def deduplicate_prefer_fema (curated_records fema_records : List RawRecord) : List RawRecord :=
  let by_id := fema_records.foldl upsert []
  curated_records.foldl
    (fun m rec => if m.any (fun x => x.id == rec.id) then m else m ++ [rec])
    by_id

/-- Zero-padding to two digits, as in ISO date serialization. -/
def pad2 (n : Nat) : String :=
  if n < 10 then "0" ++ toString n else toString n

/-- Zero-padding to four digits, as in ISO date serialization. -/
def pad4 (n : Nat) : String :=
  if n < 10 then "000" ++ toString n
  else if n < 100 then "00" ++ toString n
  else if n < 1000 then "0" ++ toString n
  else toString n

/-- Python's `date.isoformat()`. -/
def isoDate (d : Date) : String :=
  pad4 d.year ++ "-" ++ pad2 d.month ++ "-" ++ pad2 d.day

/-- A record as `write_output` touches it: the sort key fields, the
source, and the `lastVerified` stamp; all other fields pass through
untouched and are abstracted as an opaque payload. -/
structure OutRecord where
  source : Option String
  state : String
  declarationDate : Option String
  lastVerified : Option String
  payload : Nat
deriving DecidableEq, Repr

/-- The sort key `(r["state"], r.get("declarationDate", ""))` of
`write_output`, compared as Python compares string tuples. -/
def outRel (a b : OutRecord) : Prop :=
  strLtB a.state b.state = true ∨
    (a.state = b.state ∧
      strLeB (a.declarationDate.getD "") (b.declarationDate.getD "") = true)

instance : DecidableRel outRel := fun a b => by
  unfold outRel; infer_instance

/-- The output envelope metadata modelled by the claims: the asserted
record count (`lastUpdated`, hash and diagnostics are provenance). -/
structure OutMeta where
  recordCount : Nat
deriving DecidableEq, Repr

/-- The envelope `write_output` serializes. -/
structure OutputEnvelope where
  metadata : OutMeta
  disasters : List OutRecord
deriving DecidableEq, Repr

/-- `write_output` (dst_data_fetcher.py lines 2447-2497): stamp
`lastVerified` for STATE/HHS records with today's date, sort by
(state, declarationDate) (Python's stable sort, modelled by stable
insertion sort), and wrap with a metadata record count. -/
def write_output (today : Date) (records : List OutRecord) : OutputEnvelope :=
  let stamped := records.map (fun rec =>
    if rec.source == some "STATE" || rec.source == some "HHS" then
      { rec with lastVerified := some (isoDate today) }
    else rec)
  let sorted := stamped.insertionSort outRel
  { metadata := { recordCount := sorted.length }, disasters := sorted }

/-- `print_url_report`'s return value (audit_curated_data.py lines
357-376): the number of URL results whose status is FAIL, given the
result statuses. -/
def urlReportFailCount (statuses : List String) : Nat :=
  (statuses.filter (fun s => s == "FAIL")).length

/-- The audit's exit computation (audit_curated_data.py lines
1300-1303): `total_failures = failure_count + ecfr_failures +
state_health_failures; exit(1 if total_failures > 0 else 0)`.  The
`url_failures` count returned by `print_url_report` is accepted here to
make its absence from the sum explicit. -/
def auditExitCode (failure_count url_failures ecfr_failures state_health_failures : Nat) : Nat :=
  if failure_count + ecfr_failures + state_health_failures > 0 then 1 else 0

/-!  ## Supporting lemmas -/

theorem monthRolloverFuel_eq (fuel : Nat) : ∀ (y m : Nat), 1 ≤ m → m ≤ fuel →
    monthRolloverFuel fuel y m = (y + (m - 1) / 12, (m - 1) % 12 + 1) := by
  induction fuel with
  | zero => intro y m h1 h2; omega
  | succ f ih =>
    intro y m h1 h2
    rw [monthRolloverFuel]
    split
    · rw [ih (y + 1) (m - 12) (by omega) (by omega)]
      refine Prod.ext ?_ ?_ <;> simp <;> omega
    · refine Prod.ext ?_ ?_ <;> simp <;> omega

theorem monthRollover_eq (y m : Nat) (h : 1 ≤ m) :
    monthRollover y m = (y + (m - 1) / 12, (m - 1) % 12 + 1) :=
  monthRolloverFuel_eq m y m h (Nat.le_refl m)

theorem monthLength_pos (y m : Nat) (h1 : 1 ≤ m) (h2 : m ≤ 12) :
    1 ≤ monthLength y m := by
  interval_cases m <;> simp only [monthLength] <;> first
    | omega
    | (split <;> omega)

theorem lastDayOfMonthPlus_closed (d : Date) (k : Nat) (h : 1 ≤ d.month + k) :
    lastDayOfMonthPlus d k =
      ⟨d.year + (d.month + k - 1) / 12, (d.month + k - 1) % 12 + 1,
        monthLength (d.year + (d.month + k - 1) / 12) ((d.month + k - 1) % 12 + 1)⟩ := by
  unfold lastDayOfMonthPlus
  rw [monthRollover_eq _ _ h]

theorem date_le_of_pair (y1 m1 y2 m2 : Nat)
    (h : y1 < y2 ∨ (y1 = y2 ∧ m1 ≤ m2)) :
    (⟨y1, m1, monthLength y1 m1⟩ : Date) ≤ ⟨y2, m2, monthLength y2 m2⟩ := by
  rcases h with h | ⟨rfl, h⟩
  · exact Or.inl h
  · rcases Nat.lt_or_ge m1 m2 with h2 | h2
    · exact Or.inr ⟨rfl, Or.inl h2⟩
    · have : m1 = m2 := by omega
      subst this
      exact Or.inr ⟨rfl, Or.inr ⟨rfl, Nat.le_refl _⟩⟩

theorem lastDayOfMonthPlus14_mono (a b : Date) (ha : ValidDate a) (hb : ValidDate b)
    (hab : a ≤ b) : lastDayOfMonthPlus a 14 ≤ lastDayOfMonthPlus b 14 := by
  obtain ⟨ha1, ha2, -, -⟩ := ha
  obtain ⟨hb1, hb2, -, -⟩ := hb
  rw [lastDayOfMonthPlus_closed a 14 (by omega), lastDayOfMonthPlus_closed b 14 (by omega)]
  apply date_le_of_pair
  rw [Date.le_iff] at hab
  omega

theorem anchorDate_append (ss r : Date) (rs : List Date) :
    anchorDate ss (rs ++ [r]) =
      if anchorDate ss rs < r then r else anchorDate ss rs := by
  simp [anchorDate, List.foldl_append]

theorem anchorDate_valid (ss : Date) (rs : List Date) (hss : ValidDate ss)
    (hrs : ∀ x ∈ rs, ValidDate x) : ValidDate (anchorDate ss rs) := by
  induction rs generalizing ss with
  | nil => exact hss
  | cons x xs ih =>
    simp only [anchorDate, List.foldl_cons]
    refine ih (if ss < x then x else ss) ?_ (fun z hz => hrs z (List.mem_cons_of_mem _ hz))
    split
    · exact hrs x (List.mem_cons_self _ _)
    · exact hss

theorem anchorDate_of_le (ss : Date) (rs : List Date) (h : ∀ x ∈ rs, x ≤ ss) :
    anchorDate ss rs = ss := by
  induction rs with
  | nil => rfl
  | cons x xs ih =>
    simp only [anchorDate, List.foldl_cons]
    have hx : x ≤ ss := h x (List.mem_cons_self _ _)
    have hnot : ¬ ss < x := by
      rw [Date.le_iff] at hx; rw [Date.lt_iff]; omega
    rw [if_neg hnot]
    exact ih (fun z hz => h z (List.mem_cons_of_mem _ hz))

theorem calculate_status_cases (se : Date) (io : Bool) (t : Date) :
    calculate_status se io t = "expired" ∨ calculate_status se io t = "expiring_soon" ∨
      calculate_status se io t = "ongoing" ∨ calculate_status se io t = "active" := by
  unfold calculate_status
  dsimp only
  by_cases h1 : dateSub se t < 0
  · rw [if_pos h1]; simp
  · rw [if_neg h1]
    by_cases h2 : dateSub se t ≤ 30
    · rw [if_pos h2]; simp
    · rw [if_neg h2]
      cases io <;> simp

theorem charsLt_trans : ∀ (as bs cs : List Char),
    charsLt as bs = true → charsLt bs cs = true → charsLt as cs = true := by
  intro as
  induction as with
  | nil =>
    intro bs cs h1 h2
    cases bs with
    | nil => simp [charsLt] at h1
    | cons b bs' =>
      cases cs with
      | nil => simp [charsLt] at h2
      | cons c cs' => simp [charsLt]
  | cons a as' ih =>
    intro bs cs h1 h2
    cases bs with
    | nil => simp [charsLt] at h1
    | cons b bs' =>
      cases cs with
      | nil => simp [charsLt] at h2
      | cons c cs' =>
        simp only [charsLt, Bool.or_eq_true, Bool.and_eq_true, beq_iff_eq,
          decide_eq_true_eq] at h1 h2 ⊢
        rcases h1 with h1 | ⟨rfl, h1⟩
        · rcases h2 with h2 | ⟨rfl, h2⟩
          · exact Or.inl (lt_trans h1 h2)
          · exact Or.inl h1
        · rcases h2 with h2 | ⟨rfl, h2⟩
          · exact Or.inl h2
          · exact Or.inr ⟨rfl, ih _ _ h1 h2⟩

theorem charsLt_eq_of_both_false : ∀ (as bs : List Char),
    charsLt as bs = false → charsLt bs as = false → as = bs := by
  intro as
  induction as with
  | nil =>
    intro bs h1 h2
    cases bs with
    | nil => rfl
    | cons b bs' => simp [charsLt] at h1
  | cons a as' ih =>
    intro bs h1 h2
    cases bs with
    | nil => simp [charsLt] at h2
    | cons b bs' =>
      simp only [charsLt, Bool.or_eq_false_iff, Bool.and_eq_false_iff, beq_iff_eq,
        decide_eq_false_iff_not, beq_eq_false_iff_ne, ne_eq] at h1 h2
      have hab : a = b := le_antisymm (not_lt.mp h2.1) (not_lt.mp h1.1)
      subst hab
      rcases h1.2 with h1' | h1'
      · exact absurd rfl h1'
      · rcases h2.2 with h2' | h2'
        · exact absurd rfl h2'
        · rw [ih bs' h1' h2']

theorem strLeB_trans (x y z : String) (h1 : strLeB x y = true) (h2 : strLeB y z = true) :
    strLeB x z = true := by
  unfold strLeB strLtB at h1 h2 ⊢
  simp only [Bool.or_eq_true, beq_iff_eq] at h1 h2 ⊢
  rcases h1 with h1 | rfl
  · rcases h2 with h2 | rfl
    · exact Or.inl (charsLt_trans _ _ _ h1 h2)
    · exact Or.inl h1
  · rcases h2 with h2 | rfl
    · exact Or.inl h2
    · exact Or.inr rfl

theorem strLeB_total (x y : String) : strLeB x y = true ∨ strLeB y x = true := by
  unfold strLeB strLtB
  simp only [Bool.or_eq_true, beq_iff_eq]
  cases h1 : charsLt x.toList y.toList
  · cases h2 : charsLt y.toList x.toList
    · have : x.toList = y.toList := charsLt_eq_of_both_false _ _ h1 h2
      exact Or.inl (Or.inr (by ext1; exact this))
    · exact Or.inr (Or.inl rfl)
  · exact Or.inl (Or.inl rfl)

theorem outRel_total (a b : OutRecord) : outRel a b ∨ outRel b a := by
  unfold outRel
  cases h1 : strLtB a.state b.state
  · cases h2 : strLtB b.state a.state
    · have heq : a.state = b.state := by
        have := charsLt_eq_of_both_false _ _ h1 h2
        ext1
        exact this
      rcases strLeB_total (a.declarationDate.getD "") (b.declarationDate.getD "") with h | h
      · exact Or.inl (Or.inr ⟨heq, h⟩)
      · exact Or.inr (Or.inr ⟨heq.symm, h⟩)
    · exact Or.inr (Or.inl rfl)
  · exact Or.inl (Or.inl rfl)

theorem outRel_trans (a b c : OutRecord) (h1 : outRel a b) (h2 : outRel b c) : outRel a c := by
  unfold outRel strLtB at h1 h2 ⊢
  rcases h1 with h1 | ⟨he1, h1⟩
  · rcases h2 with h2 | ⟨he2, h2⟩
    · exact Or.inl (charsLt_trans _ _ _ h1 h2)
    · exact Or.inl (he2 ▸ h1)
  · rcases h2 with h2 | ⟨he2, h2⟩
    · exact Or.inl (he1 ▸ h2)
    · exact Or.inr ⟨he1.trans he2, strLeB_trans _ _ _ h1 h2⟩

theorem find?_cons_eq {α : Type} (a : α) (l : List α) (p : α → Bool) :
    (a :: l).find? p = if p a then some a else l.find? p := by
  cases h : p a <;> simp [List.find?_cons, h]

theorem hasId_iff (m : List RawRecord) (i : String) :
    (m.any (fun x => x.id == i)) = true ↔ i ∈ m.map (fun x => x.id) := by
  rw [List.any_eq_true]
  constructor
  · rintro ⟨x, hx, hxi⟩
    exact List.mem_map.mpr ⟨x, hx, by simpa using hxi⟩
  · intro hm
    rcases List.mem_map.mp hm with ⟨x, hx, hxi⟩
    exact ⟨x, hx, by simp [hxi]⟩

theorem replaceById_ids (m : List RawRecord) (r : RawRecord) :
    ((m.map (fun x => if x.id == r.id then r else x)).map (fun x => x.id)) =
      m.map (fun x => x.id) := by
  rw [List.map_map]
  apply List.map_congr_left
  intro x _
  dsimp only [Function.comp]
  by_cases h : x.id = r.id
  · rw [if_pos (by simp [h])]
    exact h.symm
  · rw [if_neg (by simp [h])]

theorem upsert_ids (m : List RawRecord) (r : RawRecord) :
    (upsert m r).map (fun x => x.id) =
      if r.id ∈ m.map (fun x => x.id) then m.map (fun x => x.id)
      else m.map (fun x => x.id) ++ [r.id] := by
  unfold upsert
  by_cases hc : (m.any (fun x => x.id == r.id)) = true
  · rw [if_pos hc, replaceById_ids, if_pos ((hasId_iff m r.id).mp hc)]
  · rw [if_neg hc, List.map_append,
      if_neg (fun hmem => hc ((hasId_iff m r.id).mpr hmem))]
    rfl

theorem upsert_ids_nodup (m : List RawRecord) (r : RawRecord)
    (h : (m.map (fun x => x.id)).Nodup) :
    ((upsert m r).map (fun x => x.id)).Nodup := by
  rw [upsert_ids]
  split_ifs with hmem
  · exact h
  · simp [List.nodup_append, h, hmem]

theorem upsert_find (m : List RawRecord) (r : RawRecord) (i : String)
    (h : (m.map (fun x => x.id)).Nodup) :
    (upsert m r).find? (fun x => x.id == i) =
      if r.id = i then some r else m.find? (fun x => x.id == i) := by
  unfold upsert
  by_cases hc : (m.any (fun x => x.id == r.id)) = true
  · rw [if_pos hc]
    have hmem := (hasId_iff m r.id).mp hc
    clear hc
    induction m with
    | nil => cases hmem
    | cons x m' ih =>
      simp only [List.map_cons, List.nodup_cons, List.mem_map] at h
      by_cases hx : x.id = r.id
      · rw [List.map_cons, if_pos (by simp [hx])]
        by_cases hi : r.id = i
        · rw [find?_cons_eq, if_pos (by simp [hi]), if_pos hi]
        · have hmap : m'.map (fun y => if y.id == r.id then r else y) = m' := by
            have : ∀ y ∈ m', (if y.id == r.id then r else y) = y := by
              intro y hy
              rw [if_neg]
              simp only [beq_iff_eq]
              intro hyr
              exact h.1 ⟨y, hy, by rw [hyr, hx]⟩
            calc m'.map (fun y => if y.id == r.id then r else y)
                = m'.map (fun y => y) := List.map_congr_left this
              _ = m' := List.map_id' m'
          rw [find?_cons_eq, if_neg (by simp [hi]), hmap, if_neg hi,
            find?_cons_eq, if_neg (by simp [hx ▸ hi])]
      · have hmem' : r.id ∈ m'.map (fun x => x.id) := by
          rcases List.mem_map.mp hmem with ⟨y, hy, hyid⟩
          rcases List.mem_cons.mp hy with rfl | hy'
          · exact absurd hyid hx
          · exact List.mem_map.mpr ⟨y, hy', hyid⟩
        rw [List.map_cons, if_neg (by simp [hx])]
        by_cases hxi : x.id = i
        · have hri : ¬ r.id = i := fun hri => hx (by rw [hxi, ← hri])
          rw [find?_cons_eq, if_pos (by simp [hxi]), if_neg hri,
            find?_cons_eq, if_pos (by simp [hxi])]
        · rw [find?_cons_eq, if_neg (by simp [hxi]), ih h.2 hmem']
          by_cases hi : r.id = i
          · rw [if_pos hi, if_pos hi]
          · rw [if_neg hi, if_neg hi, find?_cons_eq, if_neg (by simp [hxi])]
  · rw [if_neg hc, List.find?_append]
    by_cases hi : r.id = i
    · have hnone : m.find? (fun x => x.id == i) = none := by
        rw [List.find?_eq_none]
        intro x hx
        simp only [beq_iff_eq]
        intro hxi
        exact hc ((hasId_iff m r.id).mpr (List.mem_map.mpr ⟨x, hx, hi ▸ hxi⟩))
      rw [hnone, if_pos hi]
      simp [hi]
    · have hbeq : (r.id == i) = false := beq_eq_false_iff_ne.mpr hi
      have hnone : ([r].find? (fun x => x.id == i)) = none := by
        simp [List.find?, hbeq]
      rw [hnone, Option.or_none, if_neg hi]

theorem foldl_upsert_ids_nodup (l : List RawRecord) : ∀ (m : List RawRecord),
    (m.map (fun x => x.id)).Nodup →
    ((l.foldl upsert m).map (fun x => x.id)).Nodup := by
  induction l with
  | nil => intro m h; exact h
  | cons r l' ih =>
    intro m h
    exact ih (upsert m r) (upsert_ids_nodup m r h)

theorem foldl_upsert_mem (l : List RawRecord) : ∀ (m : List RawRecord) (i : String),
    (i ∈ (l.foldl upsert m).map (fun x => x.id) ↔
      i ∈ m.map (fun x => x.id) ∨ i ∈ l.map (fun x => x.id)) := by
  induction l with
  | nil => intro m i; simp
  | cons r l' ih =>
    intro m i
    rw [List.foldl_cons, ih (upsert m r) i]
    rw [upsert_ids]
    split_ifs with hmem
    · simp only [List.map_cons, List.mem_cons]
      constructor
      · rintro (h | h)
        · exact Or.inl h
        · exact Or.inr (Or.inr h)
      · rintro (h | rfl | h)
        · exact Or.inl h
        · exact Or.inl hmem
        · exact Or.inr h
    · simp only [List.mem_append, List.map_cons, List.mem_cons, List.mem_singleton]
      tauto

theorem foldl_upsert_find (l : List RawRecord) : ∀ (m : List RawRecord) (i : String),
    (m.map (fun x => x.id)).Nodup →
    (l.foldl upsert m).find? (fun x => x.id == i) =
      (l.reverse.find? (fun x => x.id == i)).or (m.find? (fun x => x.id == i)) := by
  induction l with
  | nil => intro m i _; simp
  | cons r l' ih =>
    intro m i h
    rw [List.foldl_cons, ih (upsert m r) i (upsert_ids_nodup m r h),
      upsert_find m r i h, List.reverse_cons, List.find?_append, Option.or_assoc]
    by_cases hi : r.id = i
    · have hbeq : (r.id == i) = true := by simp [hi]
      have hsome : ([r].find? (fun x => x.id == i)) = some r := by
        simp [List.find?, hbeq]
      rw [hsome, if_pos hi]
      cases hl : l'.reverse.find? (fun x => x.id == i) <;> rfl
    · have hbeq : (r.id == i) = false := beq_eq_false_iff_ne.mpr hi
      have hnone : ([r].find? (fun x => x.id == i)) = none := by
        simp [List.find?, hbeq]
      rw [hnone, if_neg hi]
      cases hl : l'.reverse.find? (fun x => x.id == i) <;> rfl

theorem curatedStep_ids (m : List RawRecord) (rec : RawRecord) :
    ((if m.any (fun x => x.id == rec.id) then m else m ++ [rec]).map (fun x => x.id)) =
      if rec.id ∈ m.map (fun x => x.id) then m.map (fun x => x.id)
      else m.map (fun x => x.id) ++ [rec.id] := by
  by_cases hc : (m.any (fun x => x.id == rec.id)) = true
  · rw [if_pos hc, if_pos ((hasId_iff m rec.id).mp hc)]
  · rw [if_neg hc, List.map_append,
      if_neg (fun hmem => hc ((hasId_iff m rec.id).mpr hmem))]
    rfl

theorem foldl_curated_ids_nodup (l : List RawRecord) : ∀ (m : List RawRecord),
    (m.map (fun x => x.id)).Nodup →
    ((l.foldl (fun m rec => if m.any (fun x => x.id == rec.id) then m
        else m ++ [rec]) m).map (fun x => x.id)).Nodup := by
  induction l with
  | nil => intro m h; exact h
  | cons rec l' ih =>
    intro m h
    rw [List.foldl_cons]
    apply ih
    rw [curatedStep_ids]
    split_ifs with hmem
    · exact h
    · simp [List.nodup_append, h, hmem]

theorem foldl_curated_mem (l : List RawRecord) : ∀ (m : List RawRecord) (i : String),
    (i ∈ ((l.foldl (fun m rec => if m.any (fun x => x.id == rec.id) then m
        else m ++ [rec]) m)).map (fun x => x.id) ↔
      i ∈ m.map (fun x => x.id) ∨ i ∈ l.map (fun x => x.id)) := by
  induction l with
  | nil => intro m i; simp
  | cons rec l' ih =>
    intro m i
    rw [List.foldl_cons, ih]
    rw [curatedStep_ids]
    split_ifs with hmem
    · simp only [List.map_cons, List.mem_cons]
      constructor
      · rintro (h | h)
        · exact Or.inl h
        · exact Or.inr (Or.inr h)
      · rintro (h | rfl | h)
        · exact Or.inl h
        · exact Or.inl hmem
        · exact Or.inr h
    · simp only [List.mem_append, List.map_cons, List.mem_cons, List.mem_singleton]
      tauto

theorem foldl_curated_find (l : List RawRecord) : ∀ (m : List RawRecord) (i : String),
    ((l.foldl (fun m rec => if m.any (fun x => x.id == rec.id) then m
        else m ++ [rec]) m)).find? (fun x => x.id == i) =
      (m.find? (fun x => x.id == i)).or (l.find? (fun x => x.id == i)) := by
  induction l with
  | nil => intro m i; simp
  | cons rec l' ih =>
    intro m i
    rw [List.foldl_cons, ih]
    by_cases hc : (m.any (fun x => x.id == rec.id)) = true
    · rw [if_pos hc]
      by_cases hi : rec.id = i
      · have hsome : (m.find? (fun x => x.id == i)).isSome := by
          rw [List.find?_isSome]
          rcases List.mem_map.mp ((hasId_iff m rec.id).mp hc) with ⟨x, hx, hxid⟩
          exact ⟨x, hx, by simp [hxid, hi]⟩
        cases hm : m.find? (fun x => x.id == i) with
        | none =>
          rw [hm] at hsome
          simp at hsome
        | some x => rfl
      · rw [find?_cons_eq, if_neg (by simp [hi])]
    · rw [if_neg hc, List.find?_append, Option.or_assoc]
      by_cases hi : rec.id = i
      · have hbeq : (rec.id == i) = true := by simp [hi]
        have hsome : ([rec].find? (fun x => x.id == i)) = some rec := by
          simp [List.find?, hbeq]
        rw [hsome, find?_cons_eq, if_pos hbeq]
        cases hm : m.find? (fun x => x.id == i) <;> rfl
      · have hbeq : (rec.id == i) = false := beq_eq_false_iff_ne.mpr hi
        have hnone : ([rec].find? (fun x => x.id == i)) = none := by
          simp [List.find?, hbeq]
        rw [hnone, find?_cons_eq, if_neg (by simp [hbeq])]
        cases hm : m.find? (fun x => x.id == i) <;> rfl

theorem check2_num (m : Bool) (r : AuditRecord) : (check2 m r).num = 2 := by
  unfold check2; dsimp only; split <;> rfl

theorem check7_num (t : Date) (r : AuditRecord) : (check7 t r).num = 7 := by
  unfold check7; rfl

theorem check8_num (t : Date) (r : AuditRecord) : (check8 t r).num = 8 := by
  unfold check8; rfl

theorem check9_num (r : AuditRecord) : (check9 r).num = 9 := by
  unfold check9; split <;> rfl

theorem check10_num (r : AuditRecord) : (check10 r).num = 10 := by
  unfold check10; split <;> rfl

theorem check11_num (r : AuditRecord) : (check11 r).num = 11 := by
  unfold check11; split <;> rfl

theorem check12_num (r : AuditRecord) : (check12 r).num = 12 := by
  unfold check12; split <;> rfl

theorem check13_num (t : Date) (r : AuditRecord) : (check13 t r).num = 13 := by
  unfold check13; split <;> rfl

theorem check26_num (r : AuditRecord) : (check26 r).num = 26 := by
  unfold check26; dsimp only; split <;> rfl

theorem checks14to17_nums (r : AuditRecord) :
    (checks14to17 r).map (fun f => f.num) = [14, 15, 16, 17] := by
  unfold checks14to17
  cases h : r.incidentEnd.isGiven <;> cases hdr : r.daysRemaining <;>
    simp [h, hdr] <;> split_ifs <;> simp

theorem checks22and24_nums (t : Date) (r : AuditRecord) :
    (checks22and24 t r).map (fun f => f.num) = [22, 24] := by
  unfold checks22and24
  dsimp only
  split_ifs <;> first
    | rfl
    | (cases hlv : (r.lastVerified).parsed <;> simp [hlv])

/-!  ## Claim theorems -/

/-- Claim C1: for every calendar date, the ended-incident SEP window
end is the last calendar day of the month two calendar months later,
rolling the year exactly when `month + 2 > 12`, independent of the
day-of-month; total on valid dates; with the four concrete examples,
and the audit's recomputation agrees with the fetcher's. -/
theorem c1_sep_window_end_spec :
    (∀ d : Date, ValidDate d →
      (calculate_sep_window_end d).year = (if d.month + 2 > 12 then d.year + 1 else d.year) ∧
      (calculate_sep_window_end d).month = (if d.month + 2 > 12 then d.month + 2 - 12 else d.month + 2) ∧
      (calculate_sep_window_end d).day =
        monthLength (calculate_sep_window_end d).year (calculate_sep_window_end d).month ∧
      ValidDate (calculate_sep_window_end d) ∧
      calculate_sep_window_end d = lastDayOfMonthPlus d 2) ∧
    (∀ y m day day' : Nat,
      calculate_sep_window_end ⟨y, m, day⟩ = calculate_sep_window_end ⟨y, m, day'⟩) ∧
    calculate_sep_window_end ⟨2026, 1, 29⟩ = ⟨2026, 3, 31⟩ ∧
    calculate_sep_window_end ⟨2025, 11, 30⟩ = ⟨2026, 1, 31⟩ ∧
    calculate_sep_window_end ⟨2025, 12, 31⟩ = ⟨2026, 2, 28⟩ ∧
    calculate_sep_window_end ⟨2024, 2, 29⟩ = ⟨2024, 4, 30⟩ ∧
    (∀ d : Date, calculate_sep_window_end_with_incident_end d = calculate_sep_window_end d) := by
  refine ⟨?_, fun y m day day' => rfl, by decide, by decide, by decide, by decide, fun d => rfl⟩
  intro d hd
  obtain ⟨h1, h2, h3, h4⟩ := hd
  refine ⟨rfl, rfl, rfl, ?_, ?_⟩
  · refine ⟨?_, ?_, ?_, Nat.le_refl _⟩ <;>
      simp only [calculate_sep_window_end] <;> split <;>
      first
        | omega
        | (apply monthLength_pos <;> omega)
  · rw [lastDayOfMonthPlus_closed d 2 (by omega)]
    simp only [calculate_sep_window_end]
    have hy : (if d.month + 2 > 12 then d.year + 1 else d.year) = d.year + (d.month + 2 - 1) / 12 := by
      split <;> omega
    have hm : (if d.month + 2 > 12 then d.month + 2 - 12 else d.month + 2) = (d.month + 2 - 1) % 12 + 1 := by
      split <;> omega
    rw [hy, hm]

/-- Claim C1 witness: the theorem applied at 2026-01-29. -/
theorem c1_witness :
    ValidDate ⟨2026, 1, 29⟩ ∧
      calculate_sep_window_end ⟨2026, 1, 29⟩ = lastDayOfMonthPlus ⟨2026, 1, 29⟩ 2 :=
  ⟨by decide, (c1_sep_window_end_spec.1 ⟨2026, 1, 29⟩ (by decide)).2.2.2.2⟩

/-- Claim C2: the ongoing SEP window end is the last day of the month
14 calendar months after `anchor = max(sepWindowStart, renewals)`; a
renewal strictly later than the current anchor re-anchors the window
and never moves it backward; renewals at or before the window start
leave it unchanged; 2025-01-18 with no renewals gives 2026-03-31; and
the audit's recomputation agrees on parseable renewal lists. -/
theorem c2_ongoing_window_spec :
    (∀ (sep_start : Date) (rs : List Date),
      calculate_ongoing_max_end sep_start rs = lastDayOfMonthPlus (anchorDate sep_start rs) 14) ∧
    (∀ (sep_start r : Date) (rs : List Date),
      ValidDate sep_start → (∀ x ∈ rs, ValidDate x) → ValidDate r →
      anchorDate sep_start rs < r →
      calculate_ongoing_max_end sep_start (rs ++ [r]) = lastDayOfMonthPlus r 14 ∧
      calculate_ongoing_max_end sep_start rs ≤ calculate_ongoing_max_end sep_start (rs ++ [r])) ∧
    (∀ (sep_start : Date) (rs : List Date), (∀ x ∈ rs, x ≤ sep_start) →
      calculate_ongoing_max_end sep_start rs = calculate_ongoing_max_end sep_start []) ∧
    calculate_ongoing_max_end ⟨2025, 1, 18⟩ [] = ⟨2026, 3, 31⟩ ∧
    (∀ (sep_start : Date) (rs : List Date),
      calculate_sep_window_end_ongoing sep_start (rs.map JDate.iso) =
        calculate_ongoing_max_end sep_start rs) := by
  refine ⟨fun ss rs => rfl, ?_, ?_, by decide, ?_⟩
  · intro ss r rs hss hrs hr hlt
    have hanchor : anchorDate ss (rs ++ [r]) = r := by
      rw [anchorDate_append, if_pos hlt]
    have havalid : ValidDate (anchorDate ss rs) := anchorDate_valid ss rs hss hrs
    have hle : anchorDate ss rs ≤ r := by
      rw [Date.lt_iff] at hlt; rw [Date.le_iff]; omega
    constructor
    · show lastDayOfMonthPlus (anchorDate ss (rs ++ [r])) 14 = lastDayOfMonthPlus r 14
      rw [hanchor]
    · show lastDayOfMonthPlus (anchorDate ss rs) 14 ≤ lastDayOfMonthPlus (anchorDate ss (rs ++ [r])) 14
      rw [hanchor]
      exact lastDayOfMonthPlus14_mono _ _ havalid hr hle
  · intro ss rs h
    show lastDayOfMonthPlus (anchorDate ss rs) 14 = lastDayOfMonthPlus (anchorDate ss []) 14
    rw [anchorDate_of_le ss rs h]
    rfl
  · intro ss rs
    simp only [calculate_sep_window_end_ongoing, calculate_ongoing_max_end, anchorDate,
      List.foldl_map, JDate.parsed]

/-- Claim C2 witness: the theorem applied at sepWindowStart 2025-01-18
with a renewal 2025-06-10 added to the empty renewal list. -/
theorem c2_witness :
    ValidDate ⟨2025, 1, 18⟩ ∧ ValidDate ⟨2025, 6, 10⟩ ∧
      anchorDate ⟨2025, 1, 18⟩ [] < ⟨2025, 6, 10⟩ ∧
      calculate_ongoing_max_end ⟨2025, 1, 18⟩ ([] ++ [⟨2025, 6, 10⟩]) =
        lastDayOfMonthPlus ⟨2025, 6, 10⟩ 14 ∧
      calculate_ongoing_max_end ⟨2025, 1, 18⟩ [] ≤
        calculate_ongoing_max_end ⟨2025, 1, 18⟩ ([] ++ [⟨2025, 6, 10⟩]) :=
  ⟨by decide, by decide, by decide,
    (c2_ongoing_window_spec.2.1 ⟨2025, 1, 18⟩ ⟨2025, 6, 10⟩ []
      (by decide) (by intro x hx; cases hx) (by decide) (by decide)).1,
    (c2_ongoing_window_spec.2.1 ⟨2025, 1, 18⟩ ⟨2025, 6, 10⟩ []
      (by decide) (by intro x hx; cases hx) (by decide) (by decide)).2⟩

/-- Claim C3: the status classifier returns `expired` iff
daysRemaining < 0, `expiring_soon` iff 0 ≤ daysRemaining ≤ 30 (30
inclusive), `ongoing` iff daysRemaining > 30 without an incident end,
`active` iff daysRemaining > 30 with one; `calculate_status` computes
daysRemaining as sepWindowEnd minus today, and the builder's
`calc_status` agrees on the non-negative range it is called on. -/
theorem c3_status_classifier :
    (∀ (hasEnd : Bool) (dr : Int),
      (statusOfDays dr (!hasEnd) = "expired" ↔ dr < 0) ∧
      (statusOfDays dr (!hasEnd) = "expiring_soon" ↔ 0 ≤ dr ∧ dr ≤ 30) ∧
      (statusOfDays dr (!hasEnd) = "ongoing" ↔ 30 < dr ∧ hasEnd = false) ∧
      (statusOfDays dr (!hasEnd) = "active" ↔ 30 < dr ∧ hasEnd = true)) ∧
    (∀ (sep_end : Date) (is_ongoing : Bool) (today : Date),
      calculate_status sep_end is_ongoing today = statusOfDays (dateSub sep_end today) is_ongoing) ∧
    (∀ (incident_end : Option String) (sep_end : Date) (dr : Int), 0 ≤ dr →
      calc_status incident_end sep_end dr = statusOfDays dr incident_end.isNone) := by
  refine ⟨?_, fun sep_end is_ongoing today => rfl, ?_⟩
  · intro hasEnd dr
    cases hasEnd <;> unfold statusOfDays <;> split_ifs <;>
      refine ⟨?_, ?_, ?_, ?_⟩ <;> simp_all <;> omega
  · intro incident_end sep_end dr h
    cases incident_end <;> unfold calc_status statusOfDays <;> split_ifs <;>
      simp_all <;> omega

/-- Claim C3 witness: the theorem applied at the inclusive boundary
daysRemaining = 30. -/
theorem c3_witness :
    (0 : Int) ≤ 30 ∧
      calc_status none ⟨2026, 3, 31⟩ 30 = statusOfDays 30 (Option.isNone (none : Option String)) :=
  ⟨by decide, c3_status_classifier.2.2 none ⟨2026, 3, 31⟩ 30 (by decide)⟩

/-- Claim C4: the builder never returns a record whose status would be
`expired` — a negative daysRemaining at build time yields no record, so
every built record has status in {ongoing, active, expiring_soon}; and
validator check 18 fails a stored record exactly when its status is
`expired`. -/
theorem c4_expired_never_persisted :
    (∀ (today : Date) (id_str source state title incident_type : String)
       (declaration_date incident_start : Date) (incident_end : Option Date)
       (renewal_dates_list : Option (List Date)) (counties : List String)
       (statewide : Bool) (official_url confidence : String)
       (last_verified : Option String) (rec : DisasterRecord),
      build_record today id_str source state title incident_type declaration_date
          incident_start incident_end renewal_dates_list counties statewide
          official_url confidence last_verified = some rec →
      (rec.status = "ongoing" ∨ rec.status = "active" ∨ rec.status = "expiring_soon") ∧
        rec.status ≠ "expired") ∧
    (∀ (today : Date) (id_str source state title incident_type : String)
       (declaration_date incident_start : Date) (incident_end : Option Date)
       (renewal_dates_list : Option (List Date)) (counties : List String)
       (statewide : Bool) (official_url confidence : String)
       (last_verified : Option String),
      dateSub (build_sep_end (calculate_sep_start declaration_date incident_start)
          incident_end renewal_dates_list) today < 0 →
      build_record today id_str source state title incident_type declaration_date
          incident_start incident_end renewal_dates_list counties statewide
          official_url confidence last_verified = none) ∧
    (∀ r : AuditRecord, (check18 r).passed = true ↔ r.status.getD "" ≠ "expired") := by
  refine ⟨?_, ?_, ?_⟩
  · intro today id_str source state title incident_type declaration_date incident_start
      incident_end renewal_dates_list counties statewide official_url confidence
      last_verified rec h
    unfold build_record at h
    split_ifs at h with h1 h2 h3 h4 h5
    dsimp only at h
    by_cases h6 : calculate_status (build_sep_end (calculate_sep_start declaration_date incident_start)
        incident_end renewal_dates_list) incident_end.isNone today = "expired"
    · rw [if_pos h6] at h
      exact Option.noConfusion h
    · rw [if_neg h6] at h
      have hstatus : rec.status =
          calculate_status (build_sep_end (calculate_sep_start declaration_date incident_start)
            incident_end renewal_dates_list) incident_end.isNone today := by
        injection h with h
        rw [← h]
      have hcases : rec.status = "expired" ∨ rec.status = "expiring_soon" ∨
          rec.status = "ongoing" ∨ rec.status = "active" := by
        rw [hstatus]
        exact calculate_status_cases _ _ _
      refine ⟨?_, ?_⟩
      · rcases hcases with hc | hc | hc | hc
        · exact absurd (hstatus ▸ hc) h6
        · exact Or.inr (Or.inr hc)
        · exact Or.inl hc
        · exact Or.inr (Or.inl hc)
      · intro hc
        exact h6 (hstatus ▸ hc)
  · intro today id_str source state title incident_type declaration_date incident_start
      incident_end renewal_dates_list counties statewide official_url confidence
      last_verified hneg
    unfold build_record
    have hexp : calculate_status (build_sep_end (calculate_sep_start declaration_date incident_start)
        incident_end renewal_dates_list) incident_end.isNone today = "expired" := by
      unfold calculate_status
      rw [if_pos hneg]
    split_ifs <;> first | rfl | (dsimp only; rw [if_pos hexp])
  · intro r
    unfold check18
    simp

/-- Claim C4 witness: the theorem applied to an input whose SEP window
ended 2025-03-31, before the build date 2026-02-11. -/
theorem c4_witness :
    dateSub (build_sep_end (calculate_sep_start ⟨2025, 1, 21⟩ ⟨2025, 1, 20⟩)
        (some ⟨2025, 1, 25⟩) none) ⟨2026, 2, 11⟩ < 0 ∧
      build_record ⟨2026, 2, 11⟩ "STATE-AL-2025-001-AL" "STATE" "AL" "t" "storm"
        ⟨2025, 1, 21⟩ ⟨2025, 1, 20⟩ (some ⟨2025, 1, 25⟩) none ["Statewide"] true
        "https://governor.alabama.gov/x" "curated" none = none :=
  ⟨by decide,
    c4_expired_never_persisted.2.1 ⟨2026, 2, 11⟩ "STATE-AL-2025-001-AL" "STATE" "AL"
      "t" "storm" ⟨2025, 1, 21⟩ ⟨2025, 1, 20⟩ (some ⟨2025, 1, 25⟩) none ["Statewide"]
      true "https://governor.alabama.gov/x" "curated" none (by decide)⟩

/-- Claim C5: the audit's exit code ignores the URL-verification FAIL
count entirely — `total_failures = failure_count + ecfr_failures +
state_health_failures` omits `url_failures` — so a run whose only FAIL
finding is a URL failure exits 0, contradicting the claim (and the
source's own comment) that every FAIL contributes to a non-zero exit;
the other failure counters do drive the exit code as claimed. -/
theorem c5_exit_code_ignores_url_failures :
    urlReportFailCount ["FAIL"] = 1 ∧
    auditExitCode 0 (urlReportFailCount ["FAIL"]) 0 0 = 0 ∧
    (∀ f u u' e s : Nat, auditExitCode f u e s = auditExitCode f u' e s) ∧
    auditExitCode 0 0 0 0 = 0 ∧
    (∀ f u e s : Nat, 0 < f + e + s → auditExitCode f u e s = 1) := by
  refine ⟨by decide, by decide, fun f u u' e s => rfl, by decide, ?_⟩
  intro f u e s h
  unfold auditExitCode
  rw [if_pos (by omega)]

/-- Claim C5 witness: the theorem applied at one structural failure. -/
theorem c5_witness :
    0 < 1 + 0 + 0 ∧ auditExitCode 1 0 0 0 = 1 :=
  ⟨by decide, c5_exit_code_ignores_url_failures.2.2.2.2 1 0 0 0 (by decide)⟩

/-- Claim C6: over arbitrary corpora, check 19 passes exactly when no
two records share an id, check 21 passes exactly when the metadata
recordCount equals the number of records, check 20 in curated mode
passes exactly when no FEMA-source record is present, while in
all-disasters mode it records the expected non-zero FEMA count without
failing; these three are the cross-record checks. -/
theorem c6_corpus_cross_checks :
    (∀ ds : List AuditRecord,
      (check19 ds).passed = true ↔ (ds.filterMap (fun d => d.id)).Nodup) ∧
    (∀ (meta : CorpusMeta) (ds : List AuditRecord),
      (check21 meta ds).passed = true ↔ meta.recordCount = some ds.length) ∧
    (∀ ds : List AuditRecord,
      (check20 false ds).passed = true ↔ ∀ r ∈ ds, r.source ≠ some "FEMA") ∧
    (∀ ds : List AuditRecord,
      (check20 true ds).passed = true ∧ (check20 true ds).expected = ">0 FEMA records") ∧
    (∀ (mode : Bool) (meta : CorpusMeta) (ds : List AuditRecord),
      crossRecordChecks mode meta ds = [check19 ds, check20 mode ds, check21 meta ds]) := by
  refine ⟨?_, ?_, ?_, fun ds => ⟨rfl, rfl⟩, fun mode meta ds => rfl⟩
  · intro ds
    unfold check19
    simp only [List.all_eq_true, decide_eq_true_eq, List.nodup_iff_count_le_one]
    constructor
    · intro h a
      by_cases ha : a ∈ ds.filterMap (fun d => d.id)
      · exact h a ha
      · simp [List.count_eq_zero_of_not_mem ha]
    · intro h a _
      exact h a
  · intro meta ds
    unfold check21
    simp
  · intro ds
    have hred : check20 false ds =
        ⟨20, "0 FEMA records",
          (ds.filter (fun d => d.source == some "FEMA")).length == 0⟩ := rfl
    rw [hred]
    simp [List.length_eq_zero, List.filter_eq_nil_iff]

/-- Claim C6 witness: the theorem applied to a two-record corpus
sharing one id, on which check 19 fails. -/
theorem c6_witness :
    (check19 [{ id := some "STATE-AL-2026-001-AL", source := none, state := none,
                title := none, incidentType := none, declarationDate := JDate.missing,
                incidentStart := JDate.missing, incidentEnd := JDate.missing,
                officialUrl := none, counties := none, status := none,
                sepWindowStart := JDate.missing, sepWindowEnd := JDate.missing,
                renewalDates := none, daysRemaining := none, lastVerified := JDate.missing },
              { id := some "STATE-AL-2026-001-AL", source := none, state := none,
                title := none, incidentType := none, declarationDate := JDate.missing,
                incidentStart := JDate.missing, incidentEnd := JDate.missing,
                officialUrl := none, counties := none, status := none,
                sepWindowStart := JDate.missing, sepWindowEnd := JDate.missing,
                renewalDates := none, daysRemaining := none,
                lastVerified := JDate.missing }]).passed = false := by
  have h := c6_corpus_cross_checks.1
    [{ id := some "STATE-AL-2026-001-AL", source := none, state := none,
       title := none, incidentType := none, declarationDate := JDate.missing,
       incidentStart := JDate.missing, incidentEnd := JDate.missing,
       officialUrl := none, counties := none, status := none,
       sepWindowStart := JDate.missing, sepWindowEnd := JDate.missing,
       renewalDates := none, daysRemaining := none, lastVerified := JDate.missing },
     { id := some "STATE-AL-2026-001-AL", source := none, state := none,
       title := none, incidentType := none, declarationDate := JDate.missing,
       incidentStart := JDate.missing, incidentEnd := JDate.missing,
       officialUrl := none, counties := none, status := none,
       sepWindowStart := JDate.missing, sepWindowEnd := JDate.missing,
       renewalDates := none, daysRemaining := none, lastVerified := JDate.missing }]
  exact Bool.eq_false_iff.mpr (fun hb => absurd (h.mp hb) (by decide))

/-- Claim C8: for an ongoing state-registry entry with a parseable
declaration date, check 29 produces the hard failure tier exactly when
the age exceeds 120 days with no renewals and the method is not
still_active, the reviewable tier exactly when the age is in (60, 120]
under the same side conditions, and passes whenever the entry is within
60 days, has renewals, or is marked still_active. -/
theorem c8_staleness_tiers :
    ∀ (today : Date) (e : StateEntry) (dd : Date),
      e.incidentEnd = none → e.declarationDate.parsed = some dd →
      (((check29 today e).passed = false ∧
          (check29 today e).description = "Ongoing STATE >120 days old without renewals") ↔
        (120 < dateSub today dd ∧ hasRenewals e = false ∧
          e.detMethod.getD "unknown" ≠ "still_active")) ∧
      (((check29 today e).passed = false ∧
          (check29 today e).description =
            "Ongoing STATE >60 days old without renewals (review needed)") ↔
        (60 < dateSub today dd ∧ dateSub today dd ≤ 120 ∧ hasRenewals e = false ∧
          e.detMethod.getD "unknown" ≠ "still_active")) ∧
      ((dateSub today dd ≤ 60 ∨ hasRenewals e = true ∨
          e.detMethod.getD "unknown" = "still_active") →
        (check29 today e).passed = true) := by
  intro today e dd h1 h2
  have hc : check29 today e =
      (let age_days := dateSub today dd
       let method := e.detMethod.getD "unknown"
       if method == "still_active" then
         ⟨29, "Staleness check — confirmed still_active", true⟩
       else if age_days > 120 && !hasRenewals e then
         ⟨29, "Ongoing STATE >120 days old without renewals", false⟩
       else if age_days > 60 && !hasRenewals e then
         ⟨29, "Ongoing STATE >60 days old without renewals (review needed)", false⟩
       else
         ⟨29, "Staleness check — age within acceptable range", true⟩) := by
    unfold check29
    rw [h1, h2]
  rw [hc]
  dsimp only
  refine ⟨?_, ?_, ?_⟩ <;>
    split_ifs with hA hB hC <;>
    simp_all <;>
    omega

/-- Claim C8 witness: the theorem applied to an entry declared
2025-09-01 audited on 2026-02-11 (163 days, hard tier). -/
theorem c8_witness :
    (⟨none, JDate.iso ⟨2025, 9, 1⟩, none, none⟩ : StateEntry).incidentEnd = none ∧
      (⟨none, JDate.iso ⟨2025, 9, 1⟩, none, none⟩ : StateEntry).declarationDate.parsed =
        some ⟨2025, 9, 1⟩ ∧
      ((check29 ⟨2026, 2, 11⟩ ⟨none, JDate.iso ⟨2025, 9, 1⟩, none, none⟩).passed = false ∧
        (check29 ⟨2026, 2, 11⟩ ⟨none, JDate.iso ⟨2025, 9, 1⟩, none, none⟩).description =
          "Ongoing STATE >120 days old without renewals") :=
  ⟨rfl, rfl,
    (c8_staleness_tiers ⟨2026, 2, 11⟩ ⟨none, JDate.iso ⟨2025, 9, 1⟩, none, none⟩
        ⟨2025, 9, 1⟩ rfl rfl).1.mpr (by refine ⟨by decide, rfl, by decide⟩)⟩

/-- Claim C9: for every record, in either audit mode and at any audit
date, the per-record validator emits exactly one finding per check
number 1-18, 22, 24, 26, 27 in that fixed order — 22 findings per
record, with inapplicable checks recorded as explicit passes rather
than omitted. -/
theorem c9_uniform_findings :
    ∀ (mode : Bool) (today : Date) (r : AuditRecord),
      (perRecordFindings mode today r).map (fun f => f.num) =
        [1, 2, 3, 4, 5, 6, 7, 8, 9, 10, 11, 12, 13, 14, 15, 16, 17, 18, 22, 24, 26, 27] ∧
      (perRecordFindings mode today r).length = 22 := by
  intro mode today r
  have hmap : (perRecordFindings mode today r).map (fun f => f.num) =
      [1, 2, 3, 4, 5, 6, 7, 8, 9, 10, 11, 12, 13, 14, 15, 16, 17, 18, 22, 24, 26, 27] := by
    unfold perRecordFindings
    simp only [List.map_append, List.map_cons, List.map_nil,
      check2_num, check7_num, check8_num, check9_num, check10_num, check11_num,
      check12_num, check13_num, check26_num, checks14to17_nums, checks22and24_nums]
    rfl
  refine ⟨hmap, ?_⟩
  have := congrArg List.length hmap
  simpa using this

/-- Claim C9 witness: the theorem applied to a record missing every
field. -/
theorem c9_witness :
    (perRecordFindings false ⟨2026, 2, 11⟩
        { id := none, source := none, state := none, title := none,
          incidentType := none, declarationDate := JDate.missing,
          incidentStart := JDate.missing, incidentEnd := JDate.missing,
          officialUrl := none, counties := none, status := none,
          sepWindowStart := JDate.missing, sepWindowEnd := JDate.missing,
          renewalDates := none, daysRemaining := none,
          lastVerified := JDate.missing }).map (fun f => f.num) =
      [1, 2, 3, 4, 5, 6, 7, 8, 9, 10, 11, 12, 13, 14, 15, 16, 17, 18, 22, 24, 26, 27] ∧
    (perRecordFindings false ⟨2026, 2, 11⟩
        { id := none, source := none, state := none, title := none,
          incidentType := none, declarationDate := JDate.missing,
          incidentStart := JDate.missing, incidentEnd := JDate.missing,
          officialUrl := none, counties := none, status := none,
          sepWindowStart := JDate.missing, sepWindowEnd := JDate.missing,
          renewalDates := none, daysRemaining := none,
          lastVerified := JDate.missing }).length = 22 :=
  c9_uniform_findings false ⟨2026, 2, 11⟩
    { id := none, source := none, state := none, title := none,
      incidentType := none, declarationDate := JDate.missing,
      incidentStart := JDate.missing, incidentEnd := JDate.missing,
      officialUrl := none, counties := none, status := none,
      sepWindowStart := JDate.missing, sepWindowEnd := JDate.missing,
      renewalDates := none, daysRemaining := none, lastVerified := JDate.missing }

/-- Claim C7 counterexample: two authoritative records sharing an id —
the merged output keeps the second occurrence, not the first, so
"among records of equal priority, the first occurrence wins" fails on
`deduplicate_prefer_fema` for the FEMA list. -/
theorem c7_counterexample :
    deduplicate_prefer_fema []
        [⟨"FEMA-DR-1001-CA", 1⟩, ⟨"FEMA-DR-1001-CA", 2⟩] =
      [⟨"FEMA-DR-1001-CA", 2⟩] ∧
    (⟨"FEMA-DR-1001-CA", 1⟩ : RawRecord) ≠ ⟨"FEMA-DR-1001-CA", 2⟩ ∧
    (⟨"FEMA-DR-1001-CA", 1⟩ : RawRecord).id = (⟨"FEMA-DR-1001-CA", 2⟩ : RawRecord).id :=
  ⟨by decide, by decide, rfl⟩

/-- Claim C7 (amended): the merge yields no duplicate ids, its ids are
exactly the union of input ids and its length the number of distinct
ids in that union; an id present among the authoritative records
resolves to the authoritative record (the last authoritative occurrence
when that list repeats an id), a curated-only id to the first curated
occurrence; the plain `deduplicate` helper is first-occurrence-wins. -/
theorem c7_merge_amended :
    ∀ (curated fema : List RawRecord),
      ((deduplicate_prefer_fema curated fema).map (fun x => x.id)).Nodup ∧
      (∀ i, i ∈ (deduplicate_prefer_fema curated fema).map (fun x => x.id) ↔
        i ∈ (fema ++ curated).map (fun x => x.id)) ∧
      (deduplicate_prefer_fema curated fema).length =
        ((fema ++ curated).map (fun x => x.id)).dedup.length ∧
      (∀ i, i ∈ fema.map (fun x => x.id) →
        (deduplicate_prefer_fema curated fema).find? (fun x => x.id == i) =
          fema.reverse.find? (fun x => x.id == i)) ∧
      (∀ i, i ∉ fema.map (fun x => x.id) → i ∈ curated.map (fun x => x.id) →
        (deduplicate_prefer_fema curated fema).find? (fun x => x.id == i) =
          curated.find? (fun x => x.id == i)) ∧
      (∀ (records : List RawRecord) (i : String),
        ((deduplicate records).map (fun x => x.id)).Nodup ∧
        (deduplicate records).find? (fun x => x.id == i) =
          records.find? (fun x => x.id == i)) := by
  intro curated fema
  have hdef : deduplicate_prefer_fema curated fema =
      curated.foldl (fun m rec => if m.any (fun x => x.id == rec.id) then m
        else m ++ [rec]) (fema.foldl upsert []) := rfl
  have hm1nodup : ((fema.foldl upsert []).map (fun x => x.id)).Nodup :=
    foldl_upsert_ids_nodup fema [] (by simp)
  have hnodup : ((deduplicate_prefer_fema curated fema).map (fun x => x.id)).Nodup := by
    rw [hdef]
    exact foldl_curated_ids_nodup curated (fema.foldl upsert []) hm1nodup
  have hmem : ∀ i, i ∈ (deduplicate_prefer_fema curated fema).map (fun x => x.id) ↔
      i ∈ (fema ++ curated).map (fun x => x.id) := by
    intro i
    rw [hdef, foldl_curated_mem, foldl_upsert_mem, List.map_append, List.mem_append]
    simp
  refine ⟨hnodup, hmem, ?_, ?_, ?_, ?_⟩
  · have hperm : List.Perm ((deduplicate_prefer_fema curated fema).map (fun x => x.id))
        (((fema ++ curated).map (fun x => x.id)).dedup) :=
      (List.perm_ext_iff_of_nodup hnodup (List.nodup_dedup _)).mpr
        (fun a => by rw [List.mem_dedup]; exact hmem a)
    calc (deduplicate_prefer_fema curated fema).length
        = ((deduplicate_prefer_fema curated fema).map (fun x => x.id)).length :=
          (List.length_map _ _).symm
      _ = ((fema ++ curated).map (fun x => x.id)).dedup.length := hperm.length_eq
  · intro i hi
    rw [hdef, foldl_curated_find, foldl_upsert_find fema [] i (by simp),
      List.find?_nil, Option.or_none]
    have hsome : (fema.reverse.find? (fun x => x.id == i)).isSome := by
      rw [List.find?_isSome]
      rcases List.mem_map.mp hi with ⟨x, hx, hxi⟩
      exact ⟨x, List.mem_reverse.mpr hx, by simp [hxi]⟩
    obtain ⟨x, hfx⟩ := Option.isSome_iff_exists.mp hsome
    rw [hfx]
    rfl
  · intro i hi _
    rw [hdef, foldl_curated_find, foldl_upsert_find fema [] i (by simp),
      List.find?_nil, Option.or_none]
    have hnone : fema.reverse.find? (fun x => x.id == i) = none := by
      rw [List.find?_eq_none]
      intro x hx
      simp only [beq_iff_eq]
      intro hxi
      exact hi (List.mem_map.mpr ⟨x, List.mem_reverse.mp hx, hxi⟩)
    rw [hnone]
    rfl
  · intro records i
    have hdef2 : deduplicate records =
        records.foldl (fun m rec => if m.any (fun x => x.id == rec.id) then m
          else m ++ [rec]) [] := rfl
    refine ⟨?_, ?_⟩
    · rw [hdef2]
      exact foldl_curated_ids_nodup records [] (by simp)
    · rw [hdef2, foldl_curated_find]
      rfl

/-- Claim C7 witness: the amended theorem applied to one curated and
two authoritative records sharing the id "A"; the merge resolves "A"
to the last authoritative occurrence. -/
theorem c7_witness :
    "A" ∈ ([⟨"A", 1⟩, ⟨"A", 2⟩] : List RawRecord).map (fun x => x.id) ∧
      (deduplicate_prefer_fema [⟨"A", 0⟩] [⟨"A", 1⟩, ⟨"A", 2⟩]).find?
          (fun x => x.id == "A") =
        ([⟨"A", 1⟩, ⟨"A", 2⟩] : List RawRecord).reverse.find? (fun x => x.id == "A") :=
  ⟨by decide,
    (c7_merge_amended [⟨"A", 0⟩] [⟨"A", 1⟩, ⟨"A", 2⟩]).2.2.2.1 "A" (by decide)⟩

/-- Claim C10: the envelope written by `write_output` asserts a
recordCount equal to the length of its disasters array; the array is
sorted by (state, declarationDate); every STATE/HHS record's
lastVerified is overwritten with today's ISO date, so its staleness on
the same day is 0 ≤ 30 days. -/
theorem c10_write_output_spec :
    ∀ (today : Date) (records : List OutRecord),
      (write_output today records).metadata.recordCount =
        (write_output today records).disasters.length ∧
      (write_output today records).disasters.Sorted outRel ∧
      (∀ r ∈ (write_output today records).disasters,
        (r.source = some "STATE" ∨ r.source = some "HHS") →
          r.lastVerified = some (isoDate today)) ∧
      dateSub today today = 0 ∧ dateSub today today ≤ 30 := by
  intro today records
  haveI : IsTotal OutRecord outRel := ⟨outRel_total⟩
  haveI : IsTrans OutRecord outRel := ⟨outRel_trans⟩
  refine ⟨rfl, List.sorted_insertionSort outRel _, ?_, by unfold dateSub; omega,
    by unfold dateSub; omega⟩
  intro r hr hsrc
  have hmem : r ∈ (records.map (fun rec =>
      if rec.source == some "STATE" || rec.source == some "HHS" then
        { rec with lastVerified := some (isoDate today) }
      else rec)) :=
    ((List.perm_insertionSort outRel _).mem_iff).mp hr
  obtain ⟨x, -, hx⟩ := List.mem_map.mp hmem
  by_cases hc : (x.source == some "STATE" || x.source == some "HHS") = true
  · rw [if_pos hc] at hx
    rw [← hx]
  · rw [if_neg hc] at hx
    subst hx
    rcases hsrc with hs | hs <;> simp [hs] at hc

/-- Claim C10 witness: the theorem applied to a two-record list with
one STATE record, on the build date 2026-02-11. -/
theorem c10_witness :
    (write_output ⟨2026, 2, 11⟩
        [⟨some "STATE", "TX", some "2026-01-01", none, 1⟩,
         ⟨some "SBA", "AL", some "2026-01-02", some "2025-12-01", 2⟩]).metadata.recordCount =
      (write_output ⟨2026, 2, 11⟩
        [⟨some "STATE", "TX", some "2026-01-01", none, 1⟩,
         ⟨some "SBA", "AL", some "2026-01-02", some "2025-12-01", 2⟩]).disasters.length ∧
    (write_output ⟨2026, 2, 11⟩
        [⟨some "STATE", "TX", some "2026-01-01", none, 1⟩,
         ⟨some "SBA", "AL", some "2026-01-02", some "2025-12-01", 2⟩]).disasters.Sorted outRel ∧
    (∀ r ∈ (write_output ⟨2026, 2, 11⟩
        [⟨some "STATE", "TX", some "2026-01-01", none, 1⟩,
         ⟨some "SBA", "AL", some "2026-01-02", some "2025-12-01", 2⟩]).disasters,
      (r.source = some "STATE" ∨ r.source = some "HHS") →
        r.lastVerified = some (isoDate ⟨2026, 2, 11⟩)) ∧
    dateSub ⟨2026, 2, 11⟩ ⟨2026, 2, 11⟩ = 0 ∧
    dateSub ⟨2026, 2, 11⟩ ⟨2026, 2, 11⟩ ≤ 30 :=
  c10_write_output_spec ⟨2026, 2, 11⟩
    [⟨some "STATE", "TX", some "2026-01-01", none, 1⟩,
     ⟨some "SBA", "AL", some "2026-01-02", some "2025-12-01", 2⟩]

end Dst
